import Mathlib

/-!
Verification of the weekly-metrics summarization pipeline (summarize.py).

The pipeline loads weekly CSV files, computes per-column statistics, builds a
text prompt, renders plots, delegates text generation to an external process
(ollama), and persists summaries and week-over-week comparisons.  We embed the
data model and the operations shallowly: a parsed CSV cell is numeric, text or
missing; a loaded table carries the header, per-column numeric-dtype flags and
the retained rows; the external process and the file system are passed
explicitly as values.
-/

namespace Summarize

/-- A cell of a parsed CSV table: a numeric value, a text value, or a missing
entry (pandas NaN). -/
inductive Cell where
  | num (q : ℚ)
  | str (s : String)
  | missing
deriving DecidableEq

/-- Whether the cell is a numeric value. -/
def Cell.isNum : Cell → Bool
  | .num _ => true
  | _ => false

/-- Whether the cell is a text value. -/
def Cell.isStr : Cell → Bool
  | .str _ => true
  | _ => false

/-- Whether the cell is a missing entry. -/
def Cell.isMissing : Cell → Bool
  | .missing => true
  | _ => false

/-- The numeric value of a cell, when it has one. -/
def Cell.toNum : Cell → Option ℚ
  | .num q => some q
  | _ => none

/-- A row is complete when it has no missing entry; `dropna()` keeps exactly
the complete rows. -/
def rowComplete (r : List Cell) : Bool := r.all (fun c => !c.isMissing)

/-- A loaded table (pandas DataFrame): column names, the per-column
numeric-dtype flags that pandas attaches at parse time, and the retained rows.
The dtype flags are part of the value because pandas computes them from the
raw file, before rows are dropped. -/
structure DataFrame where
  header : List String
  numeric : List Bool
  rows : List (List Cell)
deriving DecidableEq

/-- pandas dtype inference for column `j` of the raw parsed rows: the dtype is
numeric exactly when the file has at least one data row and every raw cell of
the column is a number or is missing (a float64 column may hold NaN); any text
cell makes the column dtype object. -/
def inferNumeric (rawRows : List (List Cell)) (j : ℕ) : Bool :=
  !rawRows.isEmpty &&
    rawRows.all (fun r => (r.getD j Cell.missing).isNum || (r.getD j Cell.missing).isMissing)

/-- Dataset loading, `pd.read_csv(csv_file).dropna().head(100)`
(summarize.py line 91), with the CSV given as its parsed header and raw rows:
rows containing any missing value are dropped, the first 100 remaining rows
are retained, and the numeric-dtype flags are inferred from the raw rows. -/
def load_dataset (header : List String) (rawRows : List (List Cell)) : DataFrame :=
  { header := header
    numeric := (List.range header.length).map (fun j => inferNumeric rawRows j)
    rows := (rawRows.filter rowComplete).take 100 }

/-- Minimum of a list of rationals (pandas `Series.min`); 0 on the empty list,
where pandas returns NaN. -/
def listMin : List ℚ → ℚ
  | [] => 0
  | x :: xs => xs.foldl min x

/-- Maximum of a list of rationals (pandas `Series.max`); 0 on the empty list,
where pandas returns NaN. -/
def listMax : List ℚ → ℚ
  | [] => 0
  | x :: xs => xs.foldl max x

/-- Arithmetic mean (pandas `Series.mean`); division by zero yields 0 on the
empty list, where pandas returns NaN. -/
def listMean (xs : List ℚ) : ℚ := xs.sum / xs.length

/-- Median (pandas `Series.median`): middle element of the sorted values for
odd length, average of the two middle elements for even length; 0 on the
empty list, where pandas returns NaN. -/
def listMedian (xs : List ℚ) : ℚ :=
  if xs.length = 0 then 0
  else
    if xs.length % 2 = 1 then (xs.insertionSort (· ≤ ·)).getD (xs.length / 2) 0
    else
      ((xs.insertionSort (· ≤ ·)).getD (xs.length / 2 - 1) 0 +
        (xs.insertionSort (· ≤ ·)).getD (xs.length / 2) 0) / 2

/-- Sample variance with denominator N−1 (the square of pandas
`Series.std`, which uses ddof=1); `none` models the NaN that pandas std
returns when fewer than two values are present. -/
def sampleVar (xs : List ℚ) : Option ℚ :=
  if xs.length ≤ 1 then none
  else some ((xs.map (fun x => (x - listMean xs) ^ 2)).sum / ((xs.length : ℚ) - 1))

/-- The five-metric statistics record stored per numeric column
(summarize.py lines 22 to 28).  The source stores the sample standard
deviation; here `std2` is its square, the sample variance, with `none`
standing for NaN, and the square root is taken by `ColStats.std` below. -/
structure ColStats where
  mean : ℚ
  median : ℚ
  std2 : Option ℚ
  min : ℚ
  max : ℚ
deriving DecidableEq

/-- The sample standard deviation of a record: the square root of the sample
variance, `none` standing for NaN. -/
noncomputable def ColStats.std (c : ColStats) : Option ℝ :=
  c.std2.map (fun v => Real.sqrt (v : ℝ))

/-- The statistics record of one list of column values. -/
def statsOf (xs : List ℚ) : ColStats :=
  { mean := listMean xs
    median := listMedian xs
    std2 := sampleVar xs
    min := listMin xs
    max := listMax xs }

/-- The cells of column `j` of the retained rows. -/
def colCells (df : DataFrame) (j : ℕ) : List Cell :=
  df.rows.map (fun r => r.getD j Cell.missing)

/-- The numeric values of column `j` of the retained rows. -/
def colNums (df : DataFrame) (j : ℕ) : List ℚ :=
  (colCells df j).filterMap Cell.toNum

/-- `calculate_statistics` (summarize.py lines 18 to 29): one statistics
record per column whose dtype is numeric; columns with non-numeric dtype are
skipped entirely. -/
def calculate_statistics (df : DataFrame) : List (String × ColStats) :=
  (List.range df.header.length).filterMap (fun j =>
    if df.numeric.getD j false then
      some (df.header.getD j "", statsOf (colNums df j))
    else none)

/-- The set of columns plotted by `plot_metrics` (summarize.py lines 74 to
87): exactly the columns whose dtype is numeric; one image per such column. -/
def plot_metrics (df : DataFrame) : List String :=
  (List.range df.header.length).filterMap (fun j =>
    if df.numeric.getD j false then some (df.header.getD j "") else none)

/-- `COLUMN_DESCRIPTIONS` (summarize.py lines 7 to 15), as a list of pairs in
insertion order, which Python dicts preserve. -/
def COLUMN_DESCRIPTIONS : List (String × String) :=
  [("queueLength", "Number of requests waiting in the system queue."),
   ("latencyRead", "Time taken to read data (in milliseconds)."),
   ("latencyWrite", "Time taken to write data (in milliseconds)."),
   ("iopsRead", "Input/Output operations per second for read operations."),
   ("iopsWrite", "Input/Output operations per second for write operations."),
   ("throughputRead", "Amount of data read per second (in MB/s)."),
   ("throughputWrite", "Amount of data written per second (in MB/s).")]

/-- The catalog entries kept by `generate_prompt` (summarize.py lines 42 to
44): the catalog pairs whose column is present in the dataset, in catalog
order. -/
def column_description_entries (df : DataFrame) : List (String × String) :=
  COLUMN_DESCRIPTIONS.filter (fun p => df.header.contains p.1)

/-- The description section text of the prompt (summarize.py lines 42 to 44):
one line per kept catalog entry. -/
def column_description_text (df : DataFrame) : String :=
  String.intercalate "\n"
    ((column_description_entries df).map (fun p => "- **" ++ p.1 ++ "**: " ++ p.2))

/-- The columns listed in the description section of the prompt, in order. -/
def promptDescriptionCols (df : DataFrame) : List String :=
  (column_description_entries df).map Prod.fst

/-- The character class kept by `clean_filename`: word characters (letters,
digits, underscore), dash and dot — the complement of the class replaced by
the regular expression `[^\w\-_.]`. -/
def keepChar (c : Char) : Bool :=
  c.isAlphanum || c = '_' || c = '-' || c = '.'

/-- `clean_filename` (summarize.py lines 64 to 65): every character outside
word characters, dash, underscore and dot is replaced with an underscore. -/
def clean_filename (text : String) : String :=
  ⟨text.data.map (fun c => if keepChar c then c else '_')⟩

/-- The observable outcome of one invocation of the external text-generation
process (`subprocess.run` with captured streams): completion status, output
stream and error stream. -/
structure ProcResult where
  returncode : Int
  stdout : String
  stderr : String
deriving DecidableEq

/-- The file system, as a map from paths to the content of the file there,
`none` when no file exists at the path. -/
def FS : Type := String → Option String

/-- Writing a file: the content at the path is replaced, every other path is
untouched. -/
def writeFile (fs : FS) (path content : String) : FS :=
  fun q => if q = path then some content else fs q

/-- The persistence step of `generate_summary` (summarize.py lines 96 to
109), with the result of the external process passed explicitly: on non-zero
status, print the diagnostic and the error stream and leave the file system
untouched; on zero status, write the trimmed output stream to the output
path and print a confirmation.  Returns the new file system and the printed
lines. -/
def generate_summary (csv_file output_txt : String) (res : ProcResult) (fs : FS) :
    FS × List String :=
  if res.returncode ≠ 0 then
    (fs, [" Error while running ollama for " ++ csv_file, res.stderr])
  else
    (writeFile fs output_txt res.stdout.trim, [" Summary written to " ++ output_txt])

/-- The comparison prompt built for one pair of summaries (summarize.py
lines 118 to 131), already stripped as in the source. -/
def comparePrompt (i : ℕ) (summary1 summary2 : String) : String :=
  "You are a system performance analyst. Below are two weekly summaries of system metrics.\n\n" ++
  "Compare Week " ++ toString (i + 1) ++ " and Week " ++ toString (i + 2) ++ ":\n" ++
  "- Focus only on actual differences in trends or anomalies.\n" ++
  "- Do not repeat similar parts.\n" ++
  "- Be precise and analytical.\n\n" ++
  "--- Week " ++ toString (i + 1) ++ " Summary ---\n" ++ summary1 ++ "\n\n" ++
  "--- Week " ++ toString (i + 2) ++ " Summary ---\n" ++ summary2

/-- The prompt of pair `i`: both summary files are read fully and trimmed
(summarize.py lines 114 to 116); a missing file is read as empty here, where
Python would raise. -/
def pairPrompt (fs : FS) (files : List String) (i : ℕ) : String :=
  comparePrompt i (((fs (files.getD i "")).getD "").trim)
    (((fs (files.getD (i + 1) "")).getD "").trim)

/-- The labeled comparison block appended for a successful pair
(summarize.py line 145): header with 1-based week indices, the comparison
text, and a divider of 80 dashes. -/
def weekBlock (i : ℕ) (text : String) : String :=
  "\n🔍 Week " ++ toString (i + 1) ++ " vs Week " ++ toString (i + 2) ++ ":\n" ++
    text ++ "\n" ++ String.mk (List.replicate 80 '-') ++ "\n"

/-- The in-memory list of comparison blocks built by `compare_summaries`
(summarize.py lines 111 to 145): one iteration per adjacent pair of summary
files; the external process result for each pair is given by `oracle`, as a
function of the pair index and the prompt; a failed pair is skipped and
contributes nothing. -/
def compare_summaries (fs : FS) (files : List String) (oracle : ℕ → String → ProcResult) :
    List String :=
  (List.range (files.length - 1)).filterMap (fun i =>
    let r := oracle i (pairPrompt fs files i)
    if r.returncode ≠ 0 then none else some (weekBlock i r.stdout.trim))

/-- The final write of `compare_summaries` (summarize.py lines 147 to 148):
the concatenation of all blocks is written to the output file in one pass. -/
def compare_summaries_write (fs : FS) (files : List String)
    (oracle : ℕ → String → ProcResult) (output_file : String) : FS :=
  writeFile fs output_file (String.join (compare_summaries fs files oracle))

end Summarize

namespace Summarize

/-- C8: clean_filename replaces each character outside word characters, dash,
underscore and dot with an underscore, so its result contains only characters
of those classes; in particular "latency/read" maps to "latency_read". -/
theorem clean_filename_only_kept_chars :
    (∀ (s : String) (c : Char), c ∈ (clean_filename s).data → keepChar c) ∧
    clean_filename "latency/read" = "latency_read" := by
  constructor
  · intro s c hc
    simp only [clean_filename, List.mem_map] at hc
    obtain ⟨a, _, ha⟩ := hc
    rw [← ha]
    by_cases h : keepChar a
    · rw [if_pos h]; exact h
    · rw [if_neg h]; decide
  · decide

/-- Witness for C8 at the concrete input "latency/read" and its character
at index 7. -/
theorem clean_filename_only_kept_chars_witness :
    '_' ∈ (clean_filename "latency/read").data ∧ keepChar '_' :=
  ⟨by decide, clean_filename_only_kept_chars.1 "latency/read" '_' (by decide)⟩

/-- C10: clean_filename is idempotent: applying it twice yields the same
result as applying it once, for every input string. -/
theorem clean_filename_idempotent :
    ∀ s : String, clean_filename (clean_filename s) = clean_filename s := by
  intro s
  apply congrArg String.mk
  show ((s.data.map _).map _) = s.data.map _
  rw [List.map_map]
  apply List.map_congr_left
  intro c _
  show (if keepChar (if keepChar c then c else '_') then (if keepChar c then c else '_') else '_') =
    (if keepChar c then c else '_')
  by_cases h : keepChar c
  · simp only [if_pos h]
  · rw [if_neg h]
    decide

/-- Skipping failed iterations: a filterMap that drops exactly the elements
with non-zero status is the map over the filtered successful elements. -/
theorem filterMap_skip_failed (l : List ℕ) (q : ℕ → ProcResult) (g : ℕ → String) :
    (l.filterMap fun i => if (q i).returncode ≠ 0 then none else some (g i)) =
      (l.filter fun i => (q i).returncode == 0).map g := by
  induction l with
  | nil => rfl
  | cons a t ih =>
      by_cases h : (q a).returncode = 0
      · rw [List.filterMap_cons, List.filter_cons]
        simp only [h, ne_eq, not_true_eq_false, if_false, beq_self_eq_true, if_true,
          List.map_cons, ih]
      · rw [List.filterMap_cons, List.filter_cons]
        simp only [h, ne_eq, not_false_eq_true, if_true, ih]
        have hb : ((q a).returncode == 0) = false := by
          simpa using h
        rw [hb]
        simp

/-- A left fold with min is at most its initial value. -/
theorem foldl_min_le_init (l : List ℚ) (a : ℚ) : l.foldl min a ≤ a := by
  induction l generalizing a with
  | nil => exact le_refl a
  | cons b t ih => exact (ih (min a b)).trans (min_le_left a b)

/-- A left fold with min is at most every element of the list. -/
theorem foldl_min_le_mem (l : List ℚ) (a x : ℚ) (hx : x ∈ l) : l.foldl min a ≤ x := by
  induction l generalizing a with
  | nil => cases hx
  | cons b t ih =>
      rcases List.mem_cons.mp hx with h | h
      · exact h ▸ (foldl_min_le_init t (min a b)).trans (min_le_right a b)
      · exact ih (min a b) h

/-- A left fold with max is at least its initial value. -/
theorem init_le_foldl_max (l : List ℚ) (a : ℚ) : a ≤ l.foldl max a := by
  induction l generalizing a with
  | nil => exact le_refl a
  | cons b t ih => exact (le_max_left a b).trans (ih (max a b))

/-- A left fold with max is at least every element of the list. -/
theorem mem_le_foldl_max (l : List ℚ) (a x : ℚ) (hx : x ∈ l) : x ≤ l.foldl max a := by
  induction l generalizing a with
  | nil => cases hx
  | cons b t ih =>
      rcases List.mem_cons.mp hx with h | h
      · exact h ▸ (le_max_right a b).trans (init_le_foldl_max t (max a b))
      · exact ih (max a b) h

/-- The minimum of a list is at most every element. -/
theorem listMin_le (xs : List ℚ) (x : ℚ) (hx : x ∈ xs) : listMin xs ≤ x := by
  cases xs with
  | nil => cases hx
  | cons a t =>
      show t.foldl min a ≤ x
      rcases List.mem_cons.mp hx with h | h
      · exact h ▸ foldl_min_le_init t a
      · exact foldl_min_le_mem t a x h

/-- The maximum of a list is at least every element. -/
theorem le_listMax (xs : List ℚ) (x : ℚ) (hx : x ∈ xs) : x ≤ listMax xs := by
  cases xs with
  | nil => cases hx
  | cons a t =>
      show x ≤ t.foldl max a
      rcases List.mem_cons.mp hx with h | h
      · exact h ▸ init_le_foldl_max t a
      · exact mem_le_foldl_max t a x h

/-- For a nonempty list the minimum is at most the mean. -/
theorem listMin_le_listMean (xs : List ℚ) (h : xs ≠ []) : listMin xs ≤ listMean xs := by
  have hpos : 0 < (xs.length : ℚ) := by
    have := List.length_pos.mpr h
    exact_mod_cast this
  rw [listMean, le_div_iff₀ hpos]
  have := List.card_nsmul_le_sum xs (listMin xs) (fun x hx => listMin_le xs x hx)
  rw [nsmul_eq_mul] at this
  linarith

/-- For a nonempty list the mean is at most the maximum. -/
theorem listMean_le_listMax (xs : List ℚ) (h : xs ≠ []) : listMean xs ≤ listMax xs := by
  have hpos : 0 < (xs.length : ℚ) := by
    have := List.length_pos.mpr h
    exact_mod_cast this
  rw [listMean, div_le_iff₀ hpos]
  have := List.sum_le_card_nsmul xs (listMax xs) (fun x hx => le_listMax xs x hx)
  rw [nsmul_eq_mul] at this
  linarith

/-- An in-range element of the sorted arrangement is an element of the list. -/
theorem sorted_getD_mem (xs : List ℚ) (k : ℕ)
    (hk : k < (xs.insertionSort (· ≤ ·)).length) :
    (xs.insertionSort (· ≤ ·)).getD k 0 ∈ xs := by
  rw [List.getD_eq_getElem _ _ hk]
  exact (List.perm_insertionSort (· ≤ ·) xs).subset (List.getElem_mem hk)

/-- For a nonempty list the median lies between the minimum and the
maximum. -/
theorem listMedian_between (xs : List ℚ) (h : xs ≠ []) :
    listMin xs ≤ listMedian xs ∧ listMedian xs ≤ listMax xs := by
  have hlen0 : xs.length ≠ 0 := fun hc => h (List.length_eq_zero.mp hc)
  have hpos : 0 < xs.length := Nat.pos_of_ne_zero hlen0
  have hslen : (xs.insertionSort (· ≤ ·)).length = xs.length :=
    (List.perm_insertionSort (· ≤ ·) xs).length_eq
  rw [listMedian, if_neg hlen0]
  by_cases hodd : xs.length % 2 = 1
  · rw [if_pos hodd]
    have hk : xs.length / 2 < (xs.insertionSort (· ≤ ·)).length := by
      rw [hslen]; exact Nat.div_lt_self hpos (by norm_num)
    have hmem := sorted_getD_mem xs (xs.length / 2) hk
    exact ⟨listMin_le xs _ hmem, le_listMax xs _ hmem⟩
  · rw [if_neg hodd]
    have hk2 : xs.length / 2 < (xs.insertionSort (· ≤ ·)).length := by
      rw [hslen]; exact Nat.div_lt_self hpos (by norm_num)
    have hk1 : xs.length / 2 - 1 < (xs.insertionSort (· ≤ ·)).length :=
      lt_of_le_of_lt (Nat.sub_le _ _) hk2
    have hmem1 := sorted_getD_mem xs (xs.length / 2 - 1) hk1
    have hmem2 := sorted_getD_mem xs (xs.length / 2) hk2
    have h1l := listMin_le xs _ hmem1
    have h1u := le_listMax xs _ hmem1
    have h2l := listMin_le xs _ hmem2
    have h2u := le_listMax xs _ hmem2
    exact ⟨by linarith, by linarith⟩

/-- The sample variance, whenever it is defined, is nonnegative. -/
theorem sampleVar_nonneg (xs : List ℚ) (q : ℚ) (h : sampleVar xs = some q) : 0 ≤ q := by
  rw [sampleVar] at h
  by_cases hle : xs.length ≤ 1
  · rw [if_pos hle] at h
    cases h
  · rw [if_neg hle] at h
    rw [← Option.some.inj h]
    apply div_nonneg
    · apply List.sum_nonneg
      intro y hy
      obtain ⟨x, _, hxy⟩ := List.mem_map.mp hy
      exact hxy ▸ sq_nonneg (x - listMean xs)
    · have h2 : 2 ≤ xs.length := by omega
      have : (2 : ℚ) ≤ (xs.length : ℚ) := by exact_mod_cast h2
      linarith

/-- The sample variance is defined exactly when at least two values are
present; with fewer it is NaN. -/
theorem sampleVar_isSome_iff (xs : List ℚ) :
    (sampleVar xs).isSome = true ↔ 2 ≤ xs.length := by
  rw [sampleVar]
  by_cases hle : xs.length ≤ 1
  · rw [if_pos hle]
    simp only [Option.isSome_none, Bool.false_eq_true, false_iff]
    omega
  · rw [if_neg hle]
    simp only [Option.isSome_some, true_iff]
    omega

/-- Reading every index of a list back, in order, reproduces the list. -/
theorem map_getD_range {α : Type} (l : List α) (d : α) :
    (List.range l.length).map (fun j => l.getD j d) = l := by
  induction l with
  | nil => rfl
  | cons a t ih =>
      rw [List.length_cons, List.range_succ_eq_map, List.map_cons, List.map_map]
      show a :: (List.range t.length).map (fun j => t.getD j d) = a :: t
      rw [ih]

/-- A filterMap that keeps every element is the plain map. -/
theorem filterMap_ite_all {α β : Type} (l : List α) (p : α → Bool) (g : α → β)
    (h : ∀ a ∈ l, p a = true) :
    (l.filterMap fun a => if p a then some (g a) else none) = l.map g := by
  induction l with
  | nil => rfl
  | cons a t ih =>
      rw [List.filterMap_cons, if_pos (h a (List.mem_cons_self a t)), List.map_cons,
        ih (fun b hb => h b (List.mem_cons_of_mem a hb))]

/-- A filterMap in which every element is kept has the same length as the
list. -/
theorem filterMap_length_all_some {α β : Type} (l : List α) (f : α → Option β)
    (h : ∀ a ∈ l, (f a).isSome = true) :
    (l.filterMap f).length = l.length := by
  induction l with
  | nil => rfl
  | cons a t ih =>
      obtain ⟨b, hb⟩ := Option.isSome_iff_exists.mp (h a (List.mem_cons_self a t))
      rw [List.filterMap_cons, hb, List.length_cons,
        ih (fun c hc => h c (List.mem_cons_of_mem a hc)), List.length_cons]

/-- First components of a conditional filterMap of pairs. -/
theorem map_fst_filterMap_ite {α β γ : Type} (l : List α) (p : α → Bool)
    (k : α → γ) (g : α → β) :
    ((l.filterMap fun a => if p a then some (k a, g a) else none).map Prod.fst) =
      l.filterMap fun a => if p a then some (k a) else none := by
  induction l with
  | nil => rfl
  | cons a t ih =>
      by_cases h : p a
      · rw [List.filterMap_cons, List.filterMap_cons, if_pos h, if_pos h,
          List.map_cons, ih]
      · rw [List.filterMap_cons, List.filterMap_cons, if_neg h, if_neg h, ih]

/-- The statistics mapping and the plotted column set have the same keys:
exactly the numeric-dtype columns. -/
theorem stats_keys_eq_plot (df : DataFrame) :
    (calculate_statistics df).map Prod.fst = plot_metrics df :=
  map_fst_filterMap_ite (List.range df.header.length)
    (fun j => df.numeric.getD j false)
    (fun j => df.header.getD j "") (fun j => statsOf (colNums df j))

/-- The numeric-dtype flag of a loaded dataset at an in-range column is the
inferred dtype of that column. -/
theorem load_numeric_getD (header : List String) (raw : List (List Cell)) (j : ℕ)
    (hj : j < header.length) :
    (load_dataset header raw).numeric.getD j false = inferNumeric raw j := by
  show ((List.range header.length).map (fun j => inferNumeric raw j)).getD j false = _
  rw [List.getD_eq_getElem _ _ (by simpa using hj)]
  simp

/-- In a duplicate-free header, in-range reads are injective. -/
theorem header_getD_inj (l : List String) (i j : ℕ) (hi : i < l.length)
    (hj : j < l.length) (hnd : l.Nodup) (h : l.getD i "" = l.getD j "") : i = j := by
  rw [List.getD_eq_getElem _ _ hi, List.getD_eq_getElem _ _ hj] at h
  exact (List.Nodup.getElem_inj_iff hnd).mp h

/-- A cell that is a number or missing but not missing has a numeric value. -/
theorem cell_some_of_flags (c : Cell) (h1 : (c.isNum || c.isMissing) = true)
    (h2 : c.isMissing = false) : (Cell.toNum c).isSome = true := by
  cases c <;> simp_all [Cell.isNum, Cell.isMissing, Cell.toNum]

/-- A text cell is neither a number nor missing. -/
theorem cell_not_numeric_of_str (c : Cell) (h : c.isStr = true) :
    (c.isNum || c.isMissing) = false := by
  cases c <;> simp_all [Cell.isStr, Cell.isNum, Cell.isMissing]

/-- In a loaded dataset, a column with numeric dtype has one numeric value
per retained row: no retained cell of the column is dropped. -/
theorem colNums_length_of_numeric (header : List String) (raw : List (List Cell))
    (j : ℕ) (hj : j < header.length) (hrect : ∀ r ∈ raw, r.length = header.length)
    (hnum : inferNumeric raw j = true) :
    (colNums (load_dataset header raw) j).length =
      (load_dataset header raw).rows.length := by
  have hall : ∀ c ∈ (load_dataset header raw).rows.map (fun r => r.getD j Cell.missing),
      (Cell.toNum c).isSome = true := by
    intro c hc
    obtain ⟨r, hr, rfl⟩ := List.mem_map.mp hc
    have hrows : (load_dataset header raw).rows = (raw.filter rowComplete).take 100 := rfl
    rw [hrows] at hr
    have hrfilter : r ∈ raw.filter rowComplete := List.take_subset 100 _ hr
    have hcomplete : rowComplete r := List.of_mem_filter hrfilter
    have hraw : r ∈ raw := List.mem_of_mem_filter hrfilter
    have hjr : j < r.length := by rw [hrect r hraw]; exact hj
    have hcellmem : r.getD j Cell.missing ∈ r := by
      rw [List.getD_eq_getElem _ _ hjr]; exact List.getElem_mem hjr
    have hnotmiss : (r.getD j Cell.missing).isMissing = false := by
      rw [rowComplete, List.all_eq_true] at hcomplete
      simpa using hcomplete _ hcellmem
    have hnumormiss :
        ((r.getD j Cell.missing).isNum || (r.getD j Cell.missing).isMissing) = true := by
      rw [inferNumeric, Bool.and_eq_true] at hnum
      exact List.all_eq_true.mp hnum.2 r hraw
    exact cell_some_of_flags _ hnumormiss hnotmiss
  have h := filterMap_length_all_some _ Cell.toNum hall
  rw [List.length_map] at h
  exact h

/-- In a loaded dataset with retained rows, a numeric-dtype column has a
nonempty value list. -/
theorem colNums_ne_nil_of_numeric (header : List String) (raw : List (List Cell))
    (j : ℕ) (hj : j < header.length) (hrect : ∀ r ∈ raw, r.length = header.length)
    (hnum : inferNumeric raw j = true)
    (hrows : (load_dataset header raw).rows ≠ []) :
    colNums (load_dataset header raw) j ≠ [] := by
  intro hc
  have h := colNums_length_of_numeric header raw j hj hrect hnum
  rw [hc] at h
  exact hrows (List.length_eq_zero.mp h.symm)

/-- C1: persistence contract of the report generator: on non-zero completion
status the error stream is printed and the file system is unchanged (an
existing output file is untouched); on zero status the trimmed output stream
is written verbatim to the output path, overwriting any existing content,
and every other path is untouched. -/
theorem generate_summary_persistence :
    ∀ (csv out : String) (res : ProcResult) (fs : FS),
      (res.returncode ≠ 0 →
        (generate_summary csv out res fs).1 = fs ∧
          res.stderr ∈ (generate_summary csv out res fs).2) ∧
      (res.returncode = 0 →
        (generate_summary csv out res fs).1 out = some res.stdout.trim ∧
          ∀ p, p ≠ out → (generate_summary csv out res fs).1 p = fs p) := by
  intro csv out res fs
  constructor
  · intro h
    rw [generate_summary, if_pos h]
    exact ⟨rfl, by simp⟩
  · intro h
    rw [generate_summary, if_neg (by simpa using h)]
    refine ⟨?_, ?_⟩
    · show writeFile fs out res.stdout.trim out = some res.stdout.trim
      rw [writeFile, if_pos rfl]
    · intro p hp
      show writeFile fs out res.stdout.trim p = fs p
      rw [writeFile, if_neg hp]

/-- Witness for C1 at a concrete successful process result: the trimmed
output stream appears at the output path. -/
theorem generate_summary_persistence_witness :
    (ProcResult.mk 0 " all good " "").returncode = 0 ∧
      (generate_summary "week1.csv" "out.txt" (ProcResult.mk 0 " all good " "")
        (fun _ => none)).1 "out.txt" = some (String.trim " all good ") :=
  ⟨rfl, ((generate_summary_persistence "week1.csv" "out.txt"
    (ProcResult.mk 0 " all good " "") (fun _ => none)).2 rfl).1⟩

/-- C2: blocks and final write of the comparator: the block list is exactly
one labeled block per successful adjacent pair, in pair order, with 1-based
week labels derived from the pair position; the output file receives the
concatenation of all blocks in one pass, overwriting existing content; and
when every pair fails the output file is created empty. -/
theorem compare_summaries_blocks :
    ∀ (fs : FS) (files : List String) (oracle : ℕ → String → ProcResult) (out : String),
      compare_summaries fs files oracle =
        ((List.range (files.length - 1)).filter
            (fun i => (oracle i (pairPrompt fs files i)).returncode == 0)).map
          (fun i => weekBlock i (oracle i (pairPrompt fs files i)).stdout.trim) ∧
      compare_summaries_write fs files oracle out out =
        some (String.join (compare_summaries fs files oracle)) ∧
      ((∀ i, i < files.length - 1 →
          (oracle i (pairPrompt fs files i)).returncode ≠ 0) →
        compare_summaries_write fs files oracle out out = some "") := by
  intro fs files oracle out
  have hcs : compare_summaries fs files oracle =
      (List.range (files.length - 1)).filterMap
        (fun i => if (oracle i (pairPrompt fs files i)).returncode ≠ 0 then none
          else some (weekBlock i (oracle i (pairPrompt fs files i)).stdout.trim)) := rfl
  have hblocks : compare_summaries fs files oracle =
      ((List.range (files.length - 1)).filter
          (fun i => (oracle i (pairPrompt fs files i)).returncode == 0)).map
        (fun i => weekBlock i (oracle i (pairPrompt fs files i)).stdout.trim) := by
    rw [hcs, filterMap_skip_failed]
  refine ⟨hblocks, ?_, ?_⟩
  · show writeFile fs out (String.join (compare_summaries fs files oracle)) out = _
    rw [writeFile, if_pos rfl]
  · intro hfail
    have hnil : compare_summaries fs files oracle = [] := by
      rw [hblocks, List.filter_eq_nil_iff.mpr, List.map_nil]
      intro i hi
      have := hfail i (List.mem_range.mp hi)
      simpa using this
    show writeFile fs out (String.join (compare_summaries fs files oracle)) out = _
    rw [writeFile, if_pos rfl, hnil]
    rfl

/-- Witness for C2: the four-file scenario in which only the middle pair
fails yields exactly the two blocks for pairs (1,2) and (3,4), and an
all-failing oracle yields an empty output file. -/
theorem compare_summaries_blocks_witness :
    compare_summaries (fun _ => some "sum") ["f1", "f2", "f3", "f4"]
        (fun i _ => if i = 1 then ProcResult.mk 1 "" "boom"
          else ProcResult.mk 0 ("cmp" ++ toString i) "") =
      [weekBlock 0 (("cmp" ++ toString 0).trim), weekBlock 2 (("cmp" ++ toString 2).trim)] ∧
    compare_summaries_write (fun _ => some "sum") ["f1", "f2", "f3", "f4"]
        (fun _ _ => ProcResult.mk 1 "" "boom") "out.txt" "out.txt" = some "" := by
  refine ⟨?_, (compare_summaries_blocks (fun _ => some "sum") ["f1", "f2", "f3", "f4"]
    (fun _ _ => ProcResult.mk 1 "" "boom") "out.txt").2.2 (by decide)⟩
  rw [(compare_summaries_blocks (fun _ => some "sum") ["f1", "f2", "f3", "f4"]
    (fun i _ => if i = 1 then ProcResult.mk 1 "" "boom"
      else ProcResult.mk 0 ("cmp" ++ toString i) "") "out.txt").1]
  rfl

/-- C9: with fewer than two summary files the comparator consults the
external process for no pair (its output does not depend on the oracle at
all), produces no blocks, and still creates the output file, empty. -/
theorem compare_summaries_short :
    ∀ (fs : FS) (files : List String) (oracle oracle2 : ℕ → String → ProcResult)
      (out : String), files.length < 2 →
      compare_summaries fs files oracle = [] ∧
      compare_summaries fs files oracle = compare_summaries fs files oracle2 ∧
      compare_summaries_write fs files oracle out out = some "" := by
  intro fs files oracle oracle2 out h
  have hz : files.length - 1 = 0 := by omega
  have hnil : compare_summaries fs files oracle = [] := by
    rw [compare_summaries, hz]
    rfl
  have hnil2 : compare_summaries fs files oracle2 = [] := by
    rw [compare_summaries, hz]
    rfl
  refine ⟨hnil, hnil.trans hnil2.symm, ?_⟩
  show writeFile fs out (String.join (compare_summaries fs files oracle)) out = _
  rw [writeFile, if_pos rfl, hnil]
  rfl

/-- C3: dataset loading drops every row containing a missing value, retains
only the first 100 remaining rows in their original order, and is
deterministic and idempotent: the retained rows of two loads of the same
parsed CSV are identical. -/
theorem load_dataset_loading :
    ∀ (header : List String) (raw : List (List Cell)),
      (∀ r ∈ (load_dataset header raw).rows, rowComplete r) ∧
      (load_dataset header raw).rows.length ≤ 100 ∧
      List.Sublist (load_dataset header raw).rows raw ∧
      (load_dataset header raw).rows = (raw.filter rowComplete).take 100 ∧
      load_dataset header raw = load_dataset header raw := by
  intro header raw
  refine ⟨?_, ?_, ?_, rfl, rfl⟩
  · intro r hr
    exact List.of_mem_filter (List.take_subset 100 (raw.filter rowComplete) hr)
  · exact List.length_take_le 100 (raw.filter rowComplete)
  · exact (List.take_sublist 100 (raw.filter rowComplete)).trans
      (List.filter_sublist raw)

/-- Witness for C3 at a concrete two-row table with one incomplete row. -/
theorem load_dataset_loading_witness :
    [Cell.num 1] ∈ (load_dataset ["a"] [[Cell.num 1], [Cell.missing]]).rows ∧
      rowComplete [Cell.num 1] :=
  ⟨by decide, (load_dataset_loading ["a"] [[Cell.num 1], [Cell.missing]]).1
    [Cell.num 1] (by decide)⟩

/-- C7: the description section of the prompt lists a column if and only if
it is present both in the dataset and in the static description catalog, and
the listed columns appear in catalog order. -/
theorem generate_prompt_description_cols :
    ∀ (df : DataFrame) (c : String),
      (c ∈ promptDescriptionCols df ↔
        c ∈ COLUMN_DESCRIPTIONS.map Prod.fst ∧ c ∈ df.header) ∧
      promptDescriptionCols df =
        (COLUMN_DESCRIPTIONS.map Prod.fst).filter (fun s => df.header.contains s) := by
  intro df c
  have horder : promptDescriptionCols df =
      (COLUMN_DESCRIPTIONS.map Prod.fst).filter (fun s => df.header.contains s) := by
    rw [promptDescriptionCols, column_description_entries, List.filter_map]
    rfl
  refine ⟨?_, horder⟩
  rw [horder, List.mem_filter, List.contains, List.elem_iff]

/-- Witness for C7: a column present in the dataset and the catalog is
listed. -/
theorem generate_prompt_description_cols_witness :
    "latencyRead" ∈ promptDescriptionCols (DataFrame.mk ["latencyRead", "notes"] [] []) :=
  (generate_prompt_description_cols (DataFrame.mk ["latencyRead", "notes"] [] [])
    "latencyRead").1.mpr ⟨by decide, by decide⟩

/-- C4 (amended): for a loaded dataset with only numeric-dtype columns and
at least one retained row, the statistics mapping has exactly one entry per
column, in column order, and every entry satisfies min ≤ mean ≤ max and
min ≤ median ≤ max; the sample standard deviation is defined exactly when at
least two rows are retained — with a single retained row pandas std (ddof=1)
is NaN, refuting the original claim, see the counterexample — and, whenever
defined, the sample variance and the sample standard deviation are
nonnegative. -/
theorem calculate_statistics_all_numeric :
    ∀ (header : List String) (raw : List (List Cell)),
      (∀ r ∈ raw, r.length = header.length) →
      (∀ j, j < header.length → (load_dataset header raw).numeric.getD j false = true) →
      (load_dataset header raw).rows ≠ [] →
      (calculate_statistics (load_dataset header raw)).map Prod.fst = header ∧
      ∀ e ∈ calculate_statistics (load_dataset header raw),
        e.2.min ≤ e.2.mean ∧ e.2.mean ≤ e.2.max ∧
        e.2.min ≤ e.2.median ∧ e.2.median ≤ e.2.max ∧
        (e.2.std2.isSome = true ↔ 2 ≤ (load_dataset header raw).rows.length) ∧
        (∀ q, e.2.std2 = some q → 0 ≤ q) ∧
        (∀ x ∈ e.2.std, (0 : ℝ) ≤ x) := by
  intro header raw hrect hnum hrows
  have hcalc : calculate_statistics (load_dataset header raw) =
      (List.range header.length).map
        (fun j => (header.getD j "", statsOf (colNums (load_dataset header raw) j))) :=
    filterMap_ite_all (List.range header.length)
      (fun j => (load_dataset header raw).numeric.getD j false)
      (fun j => (header.getD j "", statsOf (colNums (load_dataset header raw) j)))
      (fun j hj => hnum j (List.mem_range.mp hj))
  constructor
  · rw [hcalc, List.map_map]
    exact map_getD_range header ""
  · intro e he
    rw [hcalc] at he
    obtain ⟨j, hj, rfl⟩ := List.mem_map.mp he
    have hjlt : j < header.length := List.mem_range.mp hj
    have hflag : inferNumeric raw j = true := by
      rw [← load_numeric_getD header raw j hjlt]
      exact hnum j hjlt
    have hne : colNums (load_dataset header raw) j ≠ [] :=
      colNums_ne_nil_of_numeric header raw j hjlt hrect hflag hrows
    have hlen : (colNums (load_dataset header raw) j).length =
        (load_dataset header raw).rows.length :=
      colNums_length_of_numeric header raw j hjlt hrect hflag
    refine ⟨listMin_le_listMean _ hne, listMean_le_listMax _ hne,
      (listMedian_between _ hne).1, (listMedian_between _ hne).2, ?_, ?_, ?_⟩
    · show (sampleVar (colNums (load_dataset header raw) j)).isSome = true ↔
        2 ≤ (load_dataset header raw).rows.length
      rw [sampleVar_isSome_iff, hlen]
    · intro q hq
      exact sampleVar_nonneg _ q hq
    · intro x hx
      rw [Option.mem_def] at hx
      have hx2 : (sampleVar (colNums (load_dataset header raw) j)).map
          (fun v => Real.sqrt (v : ℝ)) = some x := hx
      obtain ⟨v, hv, hxv⟩ := Option.map_eq_some'.mp hx2
      rw [← hxv]
      exact Real.sqrt_nonneg _

/-- C4 counterexample: a one-row, all-numeric dataset has a statistics entry
whose sample standard deviation is NaN (pandas std with ddof=1 on a single
value), so the entry does not satisfy a nonnegative standard deviation. -/
theorem calculate_statistics_single_row_std_nan :
    (load_dataset ["a"] [[Cell.num 5]]).rows = [[Cell.num 5]] ∧
      (calculate_statistics (load_dataset ["a"] [[Cell.num 5]])).map
        (fun e => e.2.std2) = [none] := by
  decide

/-- Witness for C4 at a one-column, two-row numeric table. -/
theorem calculate_statistics_all_numeric_witness :
    (load_dataset ["a"] [[Cell.num 1], [Cell.num 2]]).rows ≠ [] ∧
      (calculate_statistics
        (load_dataset ["a"] [[Cell.num 1], [Cell.num 2]])).map Prod.fst = ["a"] :=
  ⟨by decide, (calculate_statistics_all_numeric ["a"] [[Cell.num 1], [Cell.num 2]]
    (by decide) (by decide) (by decide)).1⟩

/-- C5 (amended): calculate_statistics is total (no error conditions) and its
mapping is empty exactly when no column has numeric dtype; in particular a
dataset with no columns yields an empty mapping.  A dataset with no retained
rows but a numeric-dtype column yields a nonempty mapping, refuting the
original claim (see the counterexample). -/
theorem calculate_statistics_empty_iff :
    ∀ df : DataFrame,
      calculate_statistics df = [] ↔
        ∀ j, j < df.header.length → df.numeric.getD j false = false := by
  intro df
  rw [calculate_statistics, List.filterMap_eq_nil_iff]
  constructor
  · intro h j hj
    have hmem := h j (List.mem_range.mpr hj)
    cases hbool : df.numeric.getD j false with
    | false => rfl
    | true =>
        rw [hbool] at hmem
        rw [if_pos rfl] at hmem
        exact absurd hmem (by simp)
  · intro h j hjmem
    rw [h j (List.mem_range.mp hjmem)]
    simp

/-- Witness for C5 (amended) at the dataset with no columns. -/
theorem calculate_statistics_empty_iff_witness :
    calculate_statistics (load_dataset [] []) = [] :=
  (calculate_statistics_empty_iff (load_dataset [] [])).mpr (by decide)

/-- C5 counterexample: loading a one-column CSV whose only row is missing
retains no rows, yet the column keeps a numeric dtype (a float64 column of
NaN), so the statistics mapping is not empty. -/
theorem calculate_statistics_empty_counterexample :
    (load_dataset ["a"] [[Cell.missing]]).rows = [] ∧
      calculate_statistics (load_dataset ["a"] [[Cell.missing]]) ≠ [] := by
  decide

/-- C6: in a loaded dataset with a duplicate-free header, every column with
numeric dtype gets a complete statistics record and a plot, and every column
containing a text value is skipped entirely: it appears neither among the
statistics keys nor among the plotted columns. -/
theorem statistics_and_plots_skip_non_numeric :
    ∀ (header : List String) (raw : List (List Cell)), header.Nodup →
      (∀ j, j < header.length →
          (load_dataset header raw).numeric.getD j false = true →
          (header.getD j "", statsOf (colNums (load_dataset header raw) j)) ∈
              calculate_statistics (load_dataset header raw) ∧
            header.getD j "" ∈ plot_metrics (load_dataset header raw)) ∧
      (∀ j, j < header.length →
          (∃ r ∈ raw, (r.getD j Cell.missing).isStr = true) →
          header.getD j "" ∉
              (calculate_statistics (load_dataset header raw)).map Prod.fst ∧
            header.getD j "" ∉ plot_metrics (load_dataset header raw)) := by
  intro header raw hnd
  constructor
  · intro j hj hflag
    have hhead : (load_dataset header raw).header = header := rfl
    constructor
    · rw [calculate_statistics]
      exact List.mem_filterMap.mpr
        ⟨j, List.mem_range.mpr hj, by rw [hflag, if_pos rfl, hhead]⟩
    · rw [plot_metrics]
      exact List.mem_filterMap.mpr
        ⟨j, List.mem_range.mpr hj, by rw [hflag, if_pos rfl, hhead]⟩
  · intro j hj hstr
    obtain ⟨r, hr, hstrcell⟩ := hstr
    have hallfalse : raw.all
        (fun r => (r.getD j Cell.missing).isNum || (r.getD j Cell.missing).isMissing) =
          false := by
      apply Bool.eq_false_iff.mpr
      intro hall
      have hP : ((r.getD j Cell.missing).isNum || (r.getD j Cell.missing).isMissing) = true :=
        List.all_eq_true.mp hall r hr
      rw [cell_not_numeric_of_str _ hstrcell] at hP
      simp at hP
    have hflag : (load_dataset header raw).numeric.getD j false = false := by
      rw [load_numeric_getD header raw j hj, inferNumeric, hallfalse, Bool.and_false]
    have hplot : header.getD j "" ∉ plot_metrics (load_dataset header raw) := by
      intro hmem
      rw [plot_metrics] at hmem
      obtain ⟨j2, hj2mem, hj2⟩ := List.mem_filterMap.mp hmem
      have hj2lt : j2 < header.length := List.mem_range.mp hj2mem
      cases hbool : (load_dataset header raw).numeric.getD j2 false with
      | false =>
          rw [hbool] at hj2
          simp at hj2
      | true =>
          rw [hbool] at hj2
          rw [if_pos rfl] at hj2
          have heq : header.getD j2 "" = header.getD j "" := Option.some.inj hj2
          have : j2 = j := header_getD_inj header j2 j hj2lt hj hnd heq
          rw [this, hflag] at hbool
          cases hbool
    refine ⟨?_, hplot⟩
    rw [stats_keys_eq_plot]
    exact hplot

/-- Witness for C6 at a table with one numeric and one text column. -/
theorem statistics_and_plots_skip_non_numeric_witness :
    ("a", statsOf (colNums (load_dataset ["a", "b"] [[Cell.num 1, Cell.str "x"]]) 0)) ∈
        calculate_statistics (load_dataset ["a", "b"] [[Cell.num 1, Cell.str "x"]]) ∧
      "b" ∉ plot_metrics (load_dataset ["a", "b"] [[Cell.num 1, Cell.str "x"]]) :=
  ⟨((statistics_and_plots_skip_non_numeric ["a", "b"] [[Cell.num 1, Cell.str "x"]]
      (by decide)).1 0 (by decide) (by decide)).1,
    ((statistics_and_plots_skip_non_numeric ["a", "b"] [[Cell.num 1, Cell.str "x"]]
      (by decide)).2 1 (by decide)
      ⟨[Cell.num 1, Cell.str "x"], by decide, by decide⟩).2⟩

/-- Witness for C9 at a single-element file list. -/
theorem compare_summaries_short_witness :
    (["only.txt"] : List String).length < 2 ∧
      compare_summaries (fun _ => none) ["only.txt"] (fun _ _ => ProcResult.mk 0 "" "") = [] :=
  ⟨by decide, (compare_summaries_short (fun _ => none) ["only.txt"]
    (fun _ _ => ProcResult.mk 0 "" "") (fun _ _ => ProcResult.mk 0 "" "") "o"
    (by decide)).1⟩

end Summarize
